import Mathlib

/-!
Verification of the strata-mcp protocol/session layer.

Shallow embedding of the Rust sources:
  src/convert.rs   — JSON ⇄ domain-value conversion, Output → JSON flattening
  src/error.rs     — `McpError` and its JSON-RPC code mapping
  src/session.rs   — `McpSession`: branch/space context and transaction tracking
  src/server.rs    — JSON-RPC envelope handling, tools/call, read-eval-respond loop
  src/tools/…      — tool-name routing per category

Modelling conventions.
JSON values follow serde_json: a number is one of the three serde variants
(`PosInt` holding a u64, `NegInt` holding a negative i64, `Float` holding an
f64); objects are `BTreeMap`s, represented canonically as key-sorted
association lists, and the unordered `HashMap` inside the domain value is
represented the same way (sorted insertion), which is extensionally faithful.
An f64 is represented by its exact rational value; machine integers are `Nat`
or `Int` with explicit bounds where a bound matters.  Stateful Rust methods
become explicit state passing on a session record; the external stratadb
engine is a parameter (a function from commands to results), since the engine
is an external collaborator whose behaviour the adapter treats as opaque.
-/

namespace StrataMcp

/-- The signed 64-bit maximum, `i64::MAX`. -/
def i64Max : Nat := 9223372036854775807

/-- Model of `serde_json::Number` (default features): one of an unsigned
64-bit integer, a negative signed 64-bit integer, or a double.  The double
is carried as the exact rational value it denotes. -/
inductive JNumber where
  | posInt (n : Nat)
  | negInt (i : Int)
  | float (f : Rat)
deriving DecidableEq, Repr

/-- Round-to-nearest-even conversion of an unsigned 64-bit integer to an
IEEE-754 double (the Rust cast `n as f64`), returned as the exact rational
value of the resulting double.  Doubles carry 53 significand bits, so
integers below `2^53` convert exactly; `2^64` is far below the largest
finite double, so no overflow arises. -/
def f64OfNat (n : Nat) : Rat :=
  if n < 2 ^ 53 then (n : Rat)
  else
    let s := n.log2 - 52
    let q := n / 2 ^ s
    let r := n % 2 ^ s
    let half := 2 ^ (s - 1)
    let q2 := if half < r || (r == half && q % 2 == 1) then q + 1 else q
    ((q2 * 2 ^ s : Nat) : Rat)

/-- The Rust cast `i as f64` for a signed 64-bit integer, as an exact
rational (rounding is symmetric about zero). -/
def f64OfInt (i : Int) : Rat :=
  if i < 0 then -(f64OfNat i.natAbs) else f64OfNat i.toNat

namespace JNumber

/-- `serde_json::Number::as_i64`: a `PosInt` fits iff it is at most
`i64::MAX`; a `NegInt` always fits; a float never does. -/
def as_i64 : JNumber → Option Int
  | posInt n => if n ≤ i64Max then some (n : Int) else none
  | negInt i => some i
  | float _ => none

/-- `serde_json::Number::as_f64`: always succeeds, casting integer variants
to the nearest double. -/
def as_f64 : JNumber → Option Rat
  | posInt n => some (f64OfNat n)
  | negInt i => some (f64OfInt i)
  | float f => some f

/-- `serde_json::Number::from` on an i64 (`impl From<i64>`): negative values
become `NegInt`, the rest `PosInt`. -/
def ofI64 (i : Int) : JNumber :=
  if i < 0 then negInt i else posInt i.toNat

end JNumber

/-- Model of `serde_json::Value`.  Objects are serde `Map`s (`BTreeMap`
under default features): key-sorted, duplicate-free association lists are
their canonical representation. -/
inductive Json where
  | null
  | bool (b : Bool)
  | num (n : JNumber)
  | str (s : String)
  | arr (xs : List Json)
  | obj (kvs : List (String × Json))

/-- String comparison by the character list: lexicographic code-point
order, which coincides with the UTF-8 byte order a Rust `BTreeMap<String, _>`
keys by.  Phrased on `String.data` so that it evaluates by kernel
reduction. -/
def strLt (a b : String) : Bool := decide (a.data < b.data)

/-- `str::starts_with`, phrased on the character lists so that it evaluates
by kernel reduction. -/
def strStarts (p s : String) : Bool := decide (s.data.take p.data.length = p.data)

/-- Rust `str::trim` — strip leading and trailing whitespace — phrased on
the character list so that it evaluates by kernel reduction. -/
def strTrim (s : String) : String :=
  ⟨((s.data.dropWhile Char.isWhitespace).reverse.dropWhile Char.isWhitespace).reverse⟩

/-- Insert into a key-sorted association list, replacing an equal key:
the behaviour of `BTreeMap::insert` on the canonical representation. -/
def insortKV {α : Type} (k : String) (v : α) : List (String × α) → List (String × α)
  | [] => [(k, v)]
  | (k₂, v₂) :: rest =>
    if strLt k k₂ then (k, v) :: (k₂, v₂) :: rest
    else if k = k₂ then (k, v) :: rest
    else (k₂, v₂) :: insortKV k v rest

/-- Build a serde `Map` value from entries, inserting in order: how a
`serde_json::json!` object literal or a sequence of `Map::insert` calls
materialises. -/
def mkObj (kvs : List (String × Json)) : Json :=
  .obj (kvs.foldl (fun acc p => insortKV p.1 p.2 acc) [])

/-- `Map::get` on the association-list representation. -/
def lookupKV {α : Type} (kvs : List (String × α)) (k : String) : Option α :=
  match kvs.find? (fun p => p.1 = k) with
  | some p => some p.2
  | none => none

namespace Json

/-- `Value::as_str`. -/
def asStr : Json → Option String
  | str s => some s
  | _ => none

/-- Field lookup on an object value; `none` on other shapes. -/
def getKey : Json → String → Option Json
  | obj kvs, k => lookupKV kvs k
  | _, _ => none

/-- Whether an object value carries the given key; `false` on other shapes. -/
def hasKey (j : Json) (k : String) : Bool :=
  (j.getKey k).isSome

end Json

/-- Model of `McpError` (src/error.rs).  Display-format strings are built by
`msg` below; the quotation marks of the Rust format strings are elided. -/
inductive McpError where
  | strata (code : String) (message : String)
  | unknownTool (name : String)
  | missingArg (name : String)
  | invalidArg (name : String) (reason : String)
  | branchNotFound (name : String)
  | protocol (s : String)
  | io (s : String)
  | internal (s : String)
deriving DecidableEq, Repr

namespace McpError

/-- The `thiserror` display strings of `McpError`. -/
def msg : McpError → String
  | strata _ message => "strata error: " ++ message
  | unknownTool n => "unknown tool: " ++ n
  | missingArg n => "missing required argument: " ++ n
  | invalidArg n reason => "invalid argument " ++ n ++ ": " ++ reason
  | branchNotFound n => "branch not found: " ++ n
  | protocol s => "protocol error: " ++ s
  | io s => "I/O error: " ++ s
  | internal s => "internal error: " ++ s

/-- `McpError::rpc_code` (src/error.rs:120-143), arm for arm.  Note the
final catch-all: `BranchNotFound`, `Io` and `Internal` all fall to the
internal-error code. -/
def rpc_code : McpError → Int
  | unknownTool _ => -32601
  | missingArg _ => -32602
  | invalidArg _ _ => -32602
  | protocol _ => -32600
  | strata code _ =>
    match code with
    | "KEY_NOT_FOUND" | "BRANCH_NOT_FOUND" | "COLLECTION_NOT_FOUND"
    | "CELL_NOT_FOUND" | "DOCUMENT_NOT_FOUND" | "STREAM_NOT_FOUND" => -32602
    | "INVALID_KEY" | "INVALID_PATH" | "INVALID_INPUT" | "WRONG_TYPE" => -32602
    | _ => -32603
  | _ => -32603

end McpError

/-- `Result<T>` of the adapter: `std::result::Result<T, McpError>`. -/
abbrev McpResult (α : Type) := Except McpError α

/-- Model of `stratadb::Value`, the recursive domain value.  The `Object`
variant holds a `HashMap<String, Value>`; being an unordered map, it is
represented canonically as a key-sorted association list.  A `Bytes`-like
variant never arises from `json_to_value` and no claim touches it, so it is
not modelled. -/
inductive Value where
  | null
  | bool (b : Bool)
  | int (i : Int)
  | float (f : Rat)
  | str (s : String)
  | array (xs : List Value)
  | object (kvs : List (String × Value))

mutual

/-- `json_to_value` (src/convert.rs:13-42), arm for arm.  The number arm
tries `as_i64`, falls back to `as_f64`, and otherwise reports the
invalid-argument error of the source. -/
def json_to_value : Json → McpResult Value
  | .null => .ok .null
  | .bool b => .ok (.bool b)
  | .num n =>
    match n.as_i64 with
    | some i => .ok (.int i)
    | none =>
      match n.as_f64 with
      | some f => .ok (.float f)
      | none => .error (.invalidArg "value" "Number out of range")
  | .str s => .ok (.str s)
  | .arr xs => (jsonArrToValues xs).map .array
  | .obj kvs => (jsonObjToValues kvs).map .object

/-- The `arr.into_iter().map(json_to_value).collect()` of the array arm:
converts elementwise, stopping at the first error. -/
def jsonArrToValues : List Json → McpResult (List Value)
  | [] => .ok []
  | x :: xs =>
    match json_to_value x with
    | .error e => .error e
    | .ok v =>
      match jsonArrToValues xs with
      | .error e => .error e
      | .ok vs => .ok (v :: vs)

/-- The object arm's loop `for (k, v) in map { obj.insert(k, json_to_value(v)?) }`:
converts each field in iteration order (first error wins) and inserts into
the map (sorted insertion on the canonical representation; key sets are
duplicate-free in a serde map, so insertion order is immaterial). -/
def jsonObjToValues : List (String × Json) → McpResult (List (String × Value))
  | [] => .ok []
  | (k, x) :: rest =>
    match json_to_value x with
    | .error e => .error e
    | .ok v =>
      match jsonObjToValues rest with
      | .error e => .error e
      | .ok m => .ok (insortKV k v m)

end

mutual

/-- Modelled from the spec: `value_to_json` (src/convert.rs:46-49) delegates
to stratadb's `impl Into<serde_json::Value> for Value`, which is external to
this repository; the spec describes it as the structural inverse of
`json_to_value` ("DomainValue → JSON: structural inverse of the above"),
with byte values base64-encoded (a variant that never arises here).
Integers re-enter the serde number type through `From<i64>`. -/
def value_to_json : Value → Json
  | .null => .null
  | .bool b => .bool b
  | .int i => .num (JNumber.ofI64 i)
  | .float f => .num (.float f)
  | .str s => .str s
  | .array xs => .arr (valuesToJsonList xs)
  | .object kvs => .obj (valuesToJsonFields kvs)

/-- Elementwise conversion of a domain array back to JSON. -/
def valuesToJsonList : List Value → List Json
  | [] => []
  | x :: xs => value_to_json x :: valuesToJsonList xs

/-- Fieldwise conversion of a domain object back to a serde map.  Iterating
the hash map and inserting into a `BTreeMap` yields the same entries keyed
the same way; on the sorted canonical representation that is the fieldwise
image. -/
def valuesToJsonFields : List (String × Value) → List (String × Json)
  | [] => []
  | (k, v) :: rest => (k, value_to_json v) :: valuesToJsonFields rest

end

/-- Serialization of a Rust `Option` field inside a `serde_json::json!`
literal: `None` serializes as JSON null. -/
def optJson {α : Type} (f : α → Json) : Option α → Json
  | some a => f a
  | none => Json.null

/-- `stratadb::VersionedValue` as used by convert.rs: a value with a version
counter and a microsecond timestamp. -/
structure VersionedValue where
  value : Value
  version : Nat
  timestamp : Nat

/-- A vector search match (`key`, `score`, optional `metadata`). -/
structure VectorMatch where
  key : String
  score : Rat
  metadata : Option Value

/-- A stored vector record; the source reads `vd.data.embedding` and
`vd.data.metadata` through a nested record, flattened here. -/
structure VectorData where
  key : String
  embedding : List Rat
  metadata : Option Value
  version : Nat
  timestamp : Nat

/-- A vector collection description.  `metric` is the lowercased Debug
rendering of stratadb's metric enum; the rendering itself is external, so
the field carries the already-lowercased name. -/
structure VectorCollectionInfo where
  name : String
  dimension : Nat
  metric : String
  count : Nat
  index_type : String
  memory_bytes : Nat

/-- stratadb's branch description (`bi.info` in the source); `status` is the
lowercased Debug rendering of the status enum, carried as a string. -/
structure BranchInfo where
  id : String
  status : String
  created_at : Nat
  updated_at : Nat
  parent_id : Option String

/-- A branch description with version and optional timestamp
(`Output::MaybeBranchInfo` / `Output::BranchInfoList` elements). -/
structure VersionedBranchInfo where
  info : BranchInfo
  version : Nat
  timestamp : Option Nat

/-- Transaction metadata (`Output::TxnInfo`). -/
structure TxnInfo where
  id : String
  status : String
  started_at : Nat

/-- Database statistics (`Output::DatabaseInfo`). -/
structure DatabaseInfo where
  version : String
  uptime_secs : Nat
  branch_count : Nat
  total_keys : Nat

/-- One cross-primitive search result (`Output::SearchResults` element). -/
structure SearchResult where
  entity : String
  primitive : String
  score : Rat
  rank : Nat
  snippet : String

/-- Result of a bundle export (`Output::BranchExported`). -/
structure BranchExportResult where
  branch_id : String
  path : String
  entry_count : Nat
  bundle_size : Nat

/-- Result of a bundle import (`Output::BranchImported`). -/
structure BranchImportResult where
  branch_id : String
  transactions_applied : Nat
  keys_written : Nat

/-- Result of a bundle validation (`Output::BundleValidated`). -/
structure BundleValidateResult where
  branch_id : String
  format_version : Nat
  entry_count : Nat
  checksums_valid : Bool

/-- Model of `stratadb::Output`, the tagged union of result shapes the
engine returns.  Externally defined; the variants are those convert.rs
pattern-matches on. -/
inductive Output where
  | unit
  | maybe (v : Option Value)
  | maybeVersioned (v : Option VersionedValue)
  | maybeVersion (v : Option Nat)
  | version (v : Nat)
  | bool (b : Bool)
  | uint (n : Nat)
  | versionedValues (vs : List VersionedValue)
  | versionHistory (vs : Option (List VersionedValue))
  | keys (ks : List String)
  | jsonListResult (keys : List String) (cursor : Option String)
  | vectorMatches (ms : List VectorMatch)
  | vectorData (v : Option VectorData)
  | vectorCollectionList (cs : List VectorCollectionInfo)
  | versions (vs : List Nat)
  | maybeBranchInfo (b : Option VersionedBranchInfo)
  | branchInfoList (bs : List VersionedBranchInfo)
  | branchWithVersion (info : BranchInfo) (version : Nat)
  | txnInfo (t : Option TxnInfo)
  | txnBegun
  | txnCommitted (version : Nat)
  | txnAborted
  | databaseInfo (info : DatabaseInfo)
  | pong (version : String)
  | searchResults (rs : List SearchResult)
  | spaceList (ss : List String)
  | branchExported (r : BranchExportResult)
  | branchImported (r : BranchImportResult)
  | bundleValidated (r : BundleValidateResult)
  | timeRange (oldest_ts : Option Nat) (latest_ts : Option Nat)

/-- `versioned_to_json` (src/convert.rs:52-58): a versioned value as a JSON
object. -/
def versioned_to_json (vv : VersionedValue) : Json :=
  mkObj [("value", value_to_json vv.value),
         ("version", .num (.posInt vv.version)),
         ("timestamp", .num (.posInt vv.timestamp))]

/-- The common branch-description object of the `MaybeBranchInfo` and
`BranchInfoList` arms. -/
def branchInfoJson (bi : VersionedBranchInfo) : Json :=
  mkObj [("id", .str bi.info.id),
         ("status", .str bi.info.status),
         ("created_at", .num (.posInt bi.info.created_at)),
         ("updated_at", .num (.posInt bi.info.updated_at)),
         ("parent_id", optJson Json.str bi.info.parent_id),
         ("version", .num (.posInt bi.version)),
         ("timestamp", optJson (fun t => .num (.posInt t)) bi.timestamp)]

/-- `output_to_json` (src/convert.rs:62-252), arm for arm.  `json!` object
literals materialise as serde maps (`mkObj`); `Option` fields serialize as
null when absent — except the paginated-list cursor, which the source
inserts only when present. -/
def output_to_json : Output → Json
  | .unit => .null
  | .maybe v => optJson value_to_json v
  | .maybeVersioned v => optJson versioned_to_json v
  | .maybeVersion v => optJson (fun n => .num (.posInt n)) v
  | .version v => mkObj [("version", .num (.posInt v))]
  | .bool b => .bool b
  | .uint n => .num (.posInt n)
  | .versionedValues vs => .arr (vs.map versioned_to_json)
  | .versionHistory vs => optJson (fun l => .arr (l.map versioned_to_json)) vs
  | .keys ks => .arr (ks.map Json.str)
  | .jsonListResult keys cursor =>
    let base := insortKV "keys" (Json.arr (keys.map Json.str)) []
    match cursor with
    | some c => .obj (insortKV "cursor" (Json.str c) base)
    | none => .obj base
  | .vectorMatches ms =>
    .arr (ms.map fun m =>
      mkObj [("key", .str m.key),
             ("score", .num (.float m.score)),
             ("metadata", optJson value_to_json m.metadata)])
  | .vectorData v =>
    optJson (fun vd =>
      mkObj [("key", .str vd.key),
             ("embedding", .arr (vd.embedding.map fun e => .num (.float e))),
             ("metadata", optJson value_to_json vd.metadata),
             ("version", .num (.posInt vd.version)),
             ("timestamp", .num (.posInt vd.timestamp))]) v
  | .vectorCollectionList cs =>
    .arr (cs.map fun c =>
      mkObj [("name", .str c.name),
             ("dimension", .num (.posInt c.dimension)),
             ("metric", .str c.metric),
             ("count", .num (.posInt c.count)),
             ("index_type", .str c.index_type),
             ("memory_bytes", .num (.posInt c.memory_bytes))])
  | .versions vs => .arr (vs.map fun v => .num (.posInt v))
  | .maybeBranchInfo b => optJson branchInfoJson b
  | .branchInfoList bs => .arr (bs.map branchInfoJson)
  | .branchWithVersion info version =>
    mkObj [("id", .str info.id),
           ("status", .str info.status),
           ("created_at", .num (.posInt info.created_at)),
           ("updated_at", .num (.posInt info.updated_at)),
           ("parent_id", optJson Json.str info.parent_id),
           ("version", .num (.posInt version))]
  | .txnInfo t =>
    optJson (fun ti =>
      mkObj [("id", .str ti.id),
             ("status", .str ti.status),
             ("started_at", .num (.posInt ti.started_at))]) t
  | .txnBegun => mkObj [("status", .str "begun")]
  | .txnCommitted version =>
    mkObj [("status", .str "committed"), ("version", .num (.posInt version))]
  | .txnAborted => mkObj [("status", .str "aborted")]
  | .databaseInfo info =>
    mkObj [("version", .str info.version),
           ("uptime_secs", .num (.posInt info.uptime_secs)),
           ("branch_count", .num (.posInt info.branch_count)),
           ("total_keys", .num (.posInt info.total_keys))]
  | .pong version => mkObj [("pong", .bool true), ("version", .str version)]
  | .searchResults rs =>
    .arr (rs.map fun r =>
      mkObj [("entity", .str r.entity),
             ("primitive", .str r.primitive),
             ("score", .num (.float r.score)),
             ("rank", .num (.posInt r.rank)),
             ("snippet", .str r.snippet)])
  | .spaceList ss => .arr (ss.map Json.str)
  | .branchExported r =>
    mkObj [("branch_id", .str r.branch_id),
           ("path", .str r.path),
           ("entry_count", .num (.posInt r.entry_count)),
           ("bundle_size", .num (.posInt r.bundle_size))]
  | .branchImported r =>
    mkObj [("branch_id", .str r.branch_id),
           ("transactions_applied", .num (.posInt r.transactions_applied)),
           ("keys_written", .num (.posInt r.keys_written))]
  | .bundleValidated r =>
    mkObj [("branch_id", .str r.branch_id),
           ("format_version", .num (.posInt r.format_version)),
           ("entry_count", .num (.posInt r.entry_count)),
           ("checksums_valid", .bool r.checksums_valid)]
  | .timeRange oldest latest =>
    mkObj [("oldest_ts", optJson (fun t => .num (.posInt t)) oldest),
           ("latest_ts", optJson (fun t => .num (.posInt t)) latest)]

/-- Model of `stratadb::Command`, the externally-defined command union.  Only
the variants constructed by the embedded handlers appear; the session layer
treats every command opaquely, so nothing below depends on the variant set
being complete. -/
inductive Command where
  | branchExists (branch : String)
  | kvPut (branch : Option String) (space : Option String) (key : String) (value : Value)
  | kvGet (branch : Option String) (space : Option String) (key : String)

/-- The external engine, as seen through `stratadb::Session::execute`: a
command either yields an `Output` or fails; a stratadb error arrives already
converted by `From<StrataError> for McpError` (always the `strata` variant,
though nothing below depends on that). -/
abbrev Engine := Command → McpResult Output

/-- The mutable state of `McpSession` (src/session.rs): current branch and
space context and the transaction-active flag.  The `Strata` and `Session`
handles it also owns belong to the external engine. -/
structure McpSession where
  branch : String
  space : String
  in_transaction : Bool
deriving DecidableEq, Repr

namespace McpSession

/-- `McpSession::new`: fresh context on branch and space `"default"`, no
transaction active. -/
def new : McpSession :=
  { branch := "default", space := "default", in_transaction := false }

/-- `McpSession::branch_id` (src/session.rs): `Some(self.branch)`. -/
def branch_id (s : McpSession) : Option String := some s.branch

/-- `McpSession::space_id` (src/session.rs): `Some(self.space)`. -/
def space_id (s : McpSession) : Option String := some s.space

/-- `McpSession::execute` (src/session.rs:89-100): forward to the engine,
then update the transaction flag from the output — `TxnBegun` sets it,
`TxnCommitted`/`TxnAborted` clear it, everything else leaves it alone.  On
an engine error the `?` returns before the match, so the state is
untouched. -/
def execute (eng : Engine) (cmd : Command) (s : McpSession) :
    McpResult Output × McpSession :=
  match eng cmd with
  | .error e => (.error e, s)
  | .ok output =>
    let s' :=
      match output with
      | .txnBegun => { s with in_transaction := true }
      | .txnCommitted _ => { s with in_transaction := false }
      | .txnAborted => { s with in_transaction := false }
      | _ => s
    (.ok output, s')

/-- `McpSession::switch_branch` (src/session.rs:60-79): run a
`BranchExists` check through the raw stratadb session (not `execute`, so no
transaction bookkeeping); propagate its failure, reject a non-`Bool` output
as internal, fail with `BranchNotFound` when the engine answers false, and
only then update the branch field. -/
def switch_branch (eng : Engine) (name : String) (s : McpSession) :
    McpResult Unit × McpSession :=
  match eng (.branchExists name) with
  | .error e => (.error e, s)
  | .ok (.bool b) =>
    if b then (.ok (), { s with branch := name })
    else (.error (.branchNotFound name), s)
  | .ok _ => (.error (.internal "Unexpected output for BranchExists"), s)

/-- `McpSession::switch_space` (src/session.rs:82-84): unconditional field
update, no engine interaction (the signature takes no engine). -/
def switch_space (name : String) (s : McpSession) : McpSession :=
  { s with space := name }

/-- A sequence of `execute` calls, each with its own engine behaviour and
command, threading the session state. -/
def runCalls (calls : List (Engine × Command)) (s : McpSession) : McpSession :=
  calls.foldl (fun st c => (execute c.1 c.2 st).2) s

end McpSession

/-- The transaction-lifecycle reading of one `execute` result, as the spec
states it: a begun output means active, a committed or aborted output means
inactive, anything else (including an error, which produces no output)
leaves the flag as it was. -/
def txnStep (r : McpResult Output) (active : Bool) : Bool :=
  match r with
  | .ok .txnBegun => true
  | .ok (.txnCommitted _) => false
  | .ok .txnAborted => false
  | _ => active

/-- A tool call's arguments: a `serde_json::Map<String, Value>`, in the same
canonical sorted-association-list representation as object values. -/
abbrev Args := List (String × Json)

/-- `get_string_arg` (src/convert.rs:257-263): look the name up, take it as
a string, and report a missing-argument error otherwise — an argument that
is present but not a string takes the same path as an absent one, since
`as_str` folds both into `None` before the error is chosen. -/
def get_string_arg (args : Args) (name : String) : McpResult String :=
  match (lookupKV args name).bind Json.asStr with
  | some s => .ok s
  | none => .error (.missingArg name)

/-- `get_value_arg` (src/convert.rs:283-289): a missing name is a
missing-argument error; a present value goes through `json_to_value`. -/
def get_value_arg (args : Args) (name : String) : McpResult Value :=
  match lookupKV args name with
  | none => .error (.missingArg name)
  | some j => json_to_value j

/-- The `strata_kv_put` arm of the key-value dispatcher
(src/tools/kv.rs:95-107): extract `key` and `value`, build a `KvPut`
command addressed by the session's branch and space, execute it, and
flatten the output. -/
def kvPutCall (eng : Engine) (args : Args) (s : McpSession) :
    McpResult Json × McpSession :=
  match get_string_arg args "key" with
  | .error e => (.error e, s)
  | .ok key =>
    match get_value_arg args "value" with
    | .error e => (.error e, s)
    | .ok value =>
      match s.execute eng (.kvPut s.branch_id s.space_id key value) with
      | (.error e, s') => (.error e, s')
      | (.ok output, s') => (.ok (output_to_json output), s')

/-- The exact operation names of each category dispatcher's match arms, in
source order, paired with the category's routing test from
`ToolRegistry::dispatch` (src/tools/mod.rs:88-117).  The routing test is
`str::starts_with` on the literal shown; the if-else chain is its first
match over this list.  Each category's own dispatch is an exact-name match
over its arm list with a catch-all `UnknownTool` error, so the success
payloads (command construction and execution) are abstracted to `()` —
only which names are handled is at issue here.  The retention category is
modelled from the spec: src/tools/retention.rs is declared by mod.rs but
absent from the sources; the spec lists a retention category in the tool
catalog and the integration tests call `strata_retention_apply`, and
per-category dispatch is uniformly "exact-name match, no match yields
unknown tool". -/
def categories : List (String × List String) :=
  [("strata_db_",
    ["strata_db_ping", "strata_db_info", "strata_db_flush", "strata_db_compact",
     "strata_db_time_range"]),
   ("strata_kv_",
    ["strata_kv_put", "strata_kv_get", "strata_kv_delete", "strata_kv_list",
     "strata_kv_history", "strata_kv_put_many", "strata_kv_get_many",
     "strata_kv_delete_many"]),
   ("strata_state_",
    ["strata_state_set", "strata_state_get", "strata_state_delete",
     "strata_state_init", "strata_state_cas", "strata_state_list",
     "strata_state_history"]),
   ("strata_event_",
    ["strata_event_append", "strata_event_get", "strata_event_list",
     "strata_event_len"]),
   ("strata_json_",
    ["strata_json_set", "strata_json_get", "strata_json_delete",
     "strata_json_list", "strata_json_history"]),
   ("strata_space_",
    ["strata_space_list", "strata_space_create", "strata_space_delete",
     "strata_space_switch"]),
   ("strata_branch_",
    ["strata_branch_create", "strata_branch_get", "strata_branch_list",
     "strata_branch_exists", "strata_branch_delete", "strata_branch_fork",
     "strata_branch_diff", "strata_branch_merge", "strata_branch_switch"]),
   ("strata_vector_",
    ["strata_vector_upsert", "strata_vector_get", "strata_vector_delete",
     "strata_vector_search", "strata_vector_create_collection",
     "strata_vector_delete_collection", "strata_vector_list_collections",
     "strata_vector_stats", "strata_vector_batch_upsert"]),
   ("strata_txn_",
    ["strata_txn_begin", "strata_txn_commit", "strata_txn_rollback",
     "strata_txn_info", "strata_txn_active"]),
   ("strata_search", ["strata_search"]),
   ("strata_configure_", ["strata_configure_model"]),
   ("strata_bundle_",
    ["strata_bundle_export", "strata_bundle_import", "strata_bundle_validate"]),
   ("strata_retention_", ["strata_retention_apply"])]

/-- The name-routing of `ToolRegistry::dispatch` (src/tools/mod.rs:82-118)
over the table above: the first category whose routing literal starts the
name handles it; inside a category an exact arm match succeeds and anything
else is an unknown-tool error; a name no literal starts is an unknown-tool
error outright. -/
def registryRoute (name : String) : McpResult Unit :=
  match categories.find? (fun c => strStarts c.1 name) with
  | some c => if name ∈ c.2 then .ok () else .error (.unknownTool name)
  | none => .error (.unknownTool name)

/-- One hexadecimal digit, lowercase. -/
def hexDigitChar (n : Nat) : Char :=
  if n < 10 then Char.ofNat (48 + n) else Char.ofNat (87 + n)

/-- serde_json's string escaping for one character: quote and backslash are
backslash-escaped, control characters take their short escapes or a
`\u00XX` form, everything else passes through. -/
def escapeChar (c : Char) : String :=
  if c = '"' then "\\\""
  else if c = '\\' then "\\\\"
  else if c.toNat < 32 then
    match c.toNat with
    | 8 => "\\b"
    | 9 => "\\t"
    | 10 => "\\n"
    | 12 => "\\f"
    | 13 => "\\r"
    | n => "\\u00" ++ String.mk [hexDigitChar (n / 16), hexDigitChar (n % 16)]
  else String.mk [c]

/-- serde_json's escaping of a whole string. -/
def escapeString (s : String) : String :=
  String.join (s.toList.map escapeChar)

/-- Decimal rendering of a double payload: a stand-in for the
shortest-round-trip (ryu) formatting serde_json uses, which belongs to an
external crate; no theorem depends on the rendering of a float. -/
def floatRepr (f : Rat) : String := toString f

mutual

/-- `serde_json::to_string` on the JSON value model (compact form, keys in
map order). -/
def Json.serialize : Json → String
  | .null => "null"
  | .bool true => "true"
  | .bool false => "false"
  | .num (.posInt n) => toString n
  | .num (.negInt i) => toString i
  | .num (.float f) => floatRepr f
  | .str s => "\"" ++ escapeString s ++ "\""
  | .arr xs => "[" ++ Json.serializeList xs ++ "]"
  | .obj kvs => "\x7b" ++ Json.serializeFields kvs ++ "\x7d"

/-- Comma-separated serialization of array elements. -/
def Json.serializeList : List Json → String
  | [] => ""
  | [x] => Json.serialize x
  | x :: xs => Json.serialize x ++ "," ++ Json.serializeList xs

/-- Comma-separated serialization of object fields. -/
def Json.serializeFields : List (String × Json) → String
  | [] => ""
  | [(k, v)] => "\"" ++ escapeString k ++ "\":" ++ Json.serialize v
  | (k, v) :: xs =>
    "\"" ++ escapeString k ++ "\":" ++ Json.serialize v ++ "," ++
      Json.serializeFields xs

end

/-- Model of `JsonRpcRequest` (src/server.rs:22-29). -/
structure JsonRpcRequest where
  jsonrpc : String
  id : Option Json
  method : String
  params : Option Json

/-- Model of `JsonRpcError` (src/server.rs:44-50). -/
structure JsonRpcError where
  code : Int
  message : String
  data : Option Json

/-- Model of `JsonRpcResponse` (src/server.rs:32-41): exactly one of
`result` and `error` is set by the constructors below; `id`, `result` and
`error` are skipped during serialization when absent. -/
structure JsonRpcResponse where
  jsonrpc : String
  id : Option Json
  result : Option Json
  error : Option JsonRpcError

namespace JsonRpcResponse

/-- `JsonRpcResponse::success`. -/
def success (id : Option Json) (result : Json) : JsonRpcResponse :=
  { jsonrpc := "2.0", id := id, result := some result, error := none }

/-- `JsonRpcResponse::error` (the field name occupies `error` here). -/
def errorOf (id : Option Json) (code : Int) (message : String) : JsonRpcResponse :=
  { jsonrpc := "2.0", id := id, result := none,
    error := some { code := code, message := message, data := none } }

/-- `JsonRpcResponse::from_error`: code from `rpc_code`, message from the
Display string. -/
def from_error (id : Option Json) (e : McpError) : JsonRpcResponse :=
  errorOf id e.rpc_code e.msg

end JsonRpcResponse

/-- Serialization of the error object (`data` skipped when absent). -/
def rpcErrorToJson (e : JsonRpcError) : Json :=
  mkObj ([("code", .num (JNumber.ofI64 e.code)), ("message", .str e.message)] ++
    (match e.data with | some d => [("data", d)] | none => []))

/-- Serialization of a response to a JSON value, with the three
`skip_serializing_if = "Option::is_none"` fields omitted entirely (not set
to null) when absent. -/
def responseToJson (r : JsonRpcResponse) : Json :=
  mkObj ([("jsonrpc", .str r.jsonrpc)] ++
    (match r.id with | some i => [("id", i)] | none => []) ++
    (match r.result with | some v => [("result", v)] | none => []) ++
    (match r.error with | some e => [("error", rpcErrorToJson e)] | none => []))

/-- `McpServer::handle_tools_call` (src/server.rs:251-303), check for
check: params must be an object; `name` must look up to a string;
`arguments` defaults to the empty map when absent or null and is otherwise
required to be an object; then the registry dispatch runs and a successful
JSON result is wrapped in the content-array envelope with the result
serialized into the text field.  The registry dispatch is the one outside
collaborator here and is passed in; its session threading does not touch
the response construction, so the parameter carries the result alone.  The
quotation marks inside the source's error messages are elided. -/
def handle_tools_call (dispatch : String → Args → McpResult Json)
    (id : Option Json) (params : Option Json) : JsonRpcResponse :=
  match params with
  | some (.obj p) =>
    match (lookupKV p "name").bind Json.asStr with
    | none => .errorOf id (-32602) "Missing name in params"
    | some name =>
      let run : Args → JsonRpcResponse := fun args =>
        match dispatch name args with
        | .ok result =>
          .success id (mkObj [("content",
            .arr [mkObj [("type", .str "text"), ("text", .str result.serialize)]])])
        | .error e => .from_error id e
      match lookupKV p "arguments" with
      | some (.obj o) => run o
      | some .null => run []
      | none => run []
      | some _ => .errorOf id (-32602) "arguments must be an object"
  | _ => .errorOf id (-32602) "Missing params object"

/-- One iteration of the read-eval-respond loop `McpServer::run_sync`
(src/server.rs:150-181) past the end-of-stream check: trim the line; an
empty line produces no response; otherwise parse it as a request
(`serde_json::from_str`, an external parser, passed in) and either hand the
request to `handle_request` (passed in, threading the server state) or
answer a parse error carrying no id at all — the id is unrecoverable when
parsing failed. -/
def processLine {σ : Type} (parse : String → Except String JsonRpcRequest)
    (handle : JsonRpcRequest → σ → JsonRpcResponse × σ)
    (line : String) (s : σ) : Option JsonRpcResponse × σ :=
  if strTrim line = "" then (none, s)
  else
    match parse (strTrim line) with
    | .ok req =>
      let (r, s') := handle req s
      (some r, s')
    | .error e => (some (.errorOf none (-32700) ("Parse error: " ++ e)), s)

/-- The whole loop of `McpServer::run_sync` over the line stream up to
end-of-stream, collecting the responses written out (one line each,
flushed). -/
def run_sync {σ : Type} (parse : String → Except String JsonRpcRequest)
    (handle : JsonRpcRequest → σ → JsonRpcResponse × σ) :
    List String → σ → List JsonRpcResponse × σ
  | [], s => ([], s)
  | line :: rest, s =>
    let (r, s') := processLine parse handle line s
    let (rs, s'') := run_sync parse handle rest s'
    (r.toList ++ rs, s'')

instance {ε α : Type} [DecidableEq ε] [DecidableEq α] : DecidableEq (Except ε α) :=
  fun a b =>
    match a, b with
    | .ok x, .ok y => decidable_of_iff (x = y) (by simp)
    | .error x, .error y => decidable_of_iff (x = y) (by simp)
    | .ok _, .error _ => isFalse (by simp)
    | .error _, .ok _ => isFalse (by simp)

/-- Strict ordering of the keys of an object's field list: how a serde
`Map` (a `BTreeMap`) lays its entries out, with no key repeated. -/
def keysSorted : List (String × Json) → Bool
  | [] => true
  | [_] => true
  | (k₁, _) :: (k₂, v₂) :: rest =>
    strLt k₁ k₂ && keysSorted ((k₂, v₂) :: rest)

mutual

/-- The JSON values whose round trip through the domain value is at issue
in the amended round-trip statement: serde-canonical (object field lists
strictly key-sorted, as every `serde_json::Map` is; `NegInt` payloads
negative, as `serde_json::Number` construction guarantees) and with every
`PosInt` payload within the signed 64-bit range. -/
def jsonSafe : Json → Bool
  | .null => true
  | .bool _ => true
  | .str _ => true
  | .num (.posInt n) => decide (n ≤ i64Max)
  | .num (.negInt i) => decide (i < 0)
  | .num (.float _) => true
  | .arr xs => jsonSafeList xs
  | .obj kvs => keysSorted kvs && jsonSafeFields kvs

/-- `jsonSafe` over array elements. -/
def jsonSafeList : List Json → Bool
  | [] => true
  | x :: xs => jsonSafe x && jsonSafeList xs

/-- `jsonSafe` over object field values. -/
def jsonSafeFields : List (String × Json) → Bool
  | [] => true
  | (_, v) :: rest => jsonSafe v && jsonSafeFields rest

end

theorem insortKV_cons_lt {α : Type} (k : String) (v : α) (k₂ : String) (v₂ : α)
    (m : List (String × α)) (h : strLt k k₂ = true) :
    insortKV k v ((k₂, v₂) :: m) = (k, v) :: (k₂, v₂) :: m := by
  simp [insortKV, h]

mutual

theorem roundtrip_val : ∀ j : Json, jsonSafe j = true →
    (json_to_value j).map value_to_json = .ok j
  | .null, _ => by simp [json_to_value, Except.map, value_to_json]
  | .bool b, _ => by simp [json_to_value, Except.map, value_to_json]
  | .str s, _ => by simp [json_to_value, Except.map, value_to_json]
  | .num (.posInt n), h => by
    have hn : n ≤ i64Max := by simpa [jsonSafe] using h
    simp [json_to_value, JNumber.as_i64, hn, Except.map, value_to_json, JNumber.ofI64]
  | .num (.negInt i), h => by
    have hi : i < 0 := by simpa [jsonSafe] using h
    simp [json_to_value, JNumber.as_i64, Except.map, value_to_json, JNumber.ofI64, hi]
  | .num (.float f), _ => by
    simp [json_to_value, JNumber.as_i64, JNumber.as_f64, Except.map, value_to_json]
  | .arr xs, h => by
    have hxs : jsonSafeList xs = true := by simpa [jsonSafe] using h
    have ih := roundtrip_list xs hxs
    cases hj : jsonArrToValues xs with
    | error e => rw [hj] at ih; simp [Except.map] at ih
    | ok vs =>
      rw [hj] at ih
      simp only [Except.map, Except.ok.injEq] at ih
      simp [json_to_value, hj, Except.map, value_to_json, ih]
  | .obj kvs, h => by
    have hs : keysSorted kvs = true ∧ jsonSafeFields kvs = true := by
      simpa [jsonSafe, Bool.and_eq_true] using h
    have ih := roundtrip_fields kvs hs.1 hs.2
    cases hj : jsonObjToValues kvs with
    | error e => rw [hj] at ih; simp [Except.map] at ih
    | ok m =>
      rw [hj] at ih
      simp only [Except.map, Except.ok.injEq] at ih
      simp [json_to_value, hj, Except.map, value_to_json, ih]

theorem roundtrip_list : ∀ xs : List Json, jsonSafeList xs = true →
    (jsonArrToValues xs).map valuesToJsonList = .ok xs
  | [], _ => by simp [jsonArrToValues, Except.map, valuesToJsonList]
  | x :: xs, h => by
    have hx : jsonSafe x = true ∧ jsonSafeList xs = true := by
      simpa [jsonSafeList, Bool.and_eq_true] using h
    have ihx := roundtrip_val x hx.1
    have ihxs := roundtrip_list xs hx.2
    cases hjx : json_to_value x with
    | error e => rw [hjx] at ihx; simp [Except.map] at ihx
    | ok v =>
      cases hjs : jsonArrToValues xs with
      | error e => rw [hjs] at ihxs; simp [Except.map] at ihxs
      | ok vs =>
        rw [hjx] at ihx; rw [hjs] at ihxs
        simp only [Except.map, Except.ok.injEq] at ihx ihxs
        simp [jsonArrToValues, hjx, hjs, Except.map, valuesToJsonList, ihx, ihxs]

theorem roundtrip_fields : ∀ kvs : List (String × Json), keysSorted kvs = true →
    jsonSafeFields kvs = true →
    (jsonObjToValues kvs).map valuesToJsonFields = .ok kvs
  | [], _, _ => by simp [jsonObjToValues, Except.map, valuesToJsonFields]
  | (k, x) :: rest, hs, hf => by
    have hx : jsonSafe x = true ∧ jsonSafeFields rest = true := by
      simpa [jsonSafeFields, Bool.and_eq_true] using hf
    have hsr : keysSorted rest = true := by
      cases rest with
      | nil => rfl
      | cons p r =>
        obtain ⟨k₂, v₂⟩ := p
        simp [keysSorted, Bool.and_eq_true] at hs
        exact hs.2
    have ihx := roundtrip_val x hx.1
    have ihr := roundtrip_fields rest hsr hx.2
    cases hjx : json_to_value x with
    | error e => rw [hjx] at ihx; simp [Except.map] at ihx
    | ok v =>
      cases hjr : jsonObjToValues rest with
      | error e => rw [hjr] at ihr; simp [Except.map] at ihr
      | ok m =>
        rw [hjx] at ihx; rw [hjr] at ihr
        simp only [Except.map, Except.ok.injEq] at ihx ihr
        cases m with
        | nil =>
          rw [← ihr]
          simp [jsonObjToValues, hjx, hjr, insortKV, Except.map, valuesToJsonFields, ihx]
        | cons p m' =>
          obtain ⟨k₂, v₂⟩ := p
          rw [← ihr] at hs
          simp only [valuesToJsonFields, keysSorted, Bool.and_eq_true] at hs
          have hklt : strLt k k₂ = true := hs.1
          have ihr2 : (k₂, value_to_json v₂) :: valuesToJsonFields m' = rest := by
            simpa [valuesToJsonFields] using ihr
          simp [jsonObjToValues, hjx, hjr, insortKV_cons_lt k v k₂ v₂ m' hklt,
            Except.map, valuesToJsonFields, ihx, ihr2]

end

theorem execute_txn_flag (eng : Engine) (cmd : Command) (s : McpSession) :
    (McpSession.execute eng cmd s).2.in_transaction = txnStep (eng cmd) s.in_transaction := by
  unfold McpSession.execute txnStep
  cases eng cmd with
  | error e => rfl
  | ok out => cases out <;> rfl

theorem execute_result (eng : Engine) (cmd : Command) (s : McpSession) :
    (McpSession.execute eng cmd s).1 = eng cmd := by
  unfold McpSession.execute
  cases eng cmd with
  | error e => rfl
  | ok out => rfl

theorem execute_branch_space (eng : Engine) (cmd : Command) (s : McpSession) :
    (McpSession.execute eng cmd s).2.branch = s.branch ∧
    (McpSession.execute eng cmd s).2.space = s.space := by
  unfold McpSession.execute
  cases eng cmd with
  | error e => exact ⟨rfl, rfl⟩
  | ok out => cases out <;> exact ⟨rfl, rfl⟩

theorem runCalls_foldl (calls : List (Engine × Command)) (s : McpSession) :
    (McpSession.runCalls calls s).in_transaction =
      calls.foldl (fun a c => txnStep (c.1 c.2) a) s.in_transaction := by
  induction calls generalizing s with
  | nil => rfl
  | cons c rest ih =>
    show (McpSession.runCalls rest (McpSession.execute c.1 c.2 s).2).in_transaction = _
    rw [ih, execute_txn_flag]
    rfl

/-- C1 (amended): for every serde-canonical JSON value whose integer
components all lie within the signed 64-bit range, converting to a domain
value with `json_to_value` and back with `value_to_json` is the identity
(floats at the value level are already doubles and round-trip verbatim).
Integers above the signed range do not round-trip, and nothing is rejected
— see the counterexample. -/
theorem C1_roundtrip_identity (j : Json) (h : jsonSafe j = true) :
    (json_to_value j).map value_to_json = Except.ok j :=
  roundtrip_val j h

/-- Witness for C1 at a concrete nested value. -/
theorem C1_roundtrip_identity_witness :
    jsonSafe (Json.obj [("a", .num (.negInt (-3))),
      ("b", .arr [.null, .num (.posInt 7), .num (.float (1/2))])]) = true ∧
    (json_to_value (Json.obj [("a", .num (.negInt (-3))),
        ("b", .arr [.null, .num (.posInt 7), .num (.float (1/2))])])).map value_to_json =
      Except.ok (Json.obj [("a", .num (.negInt (-3))),
        ("b", .arr [.null, .num (.posInt 7), .num (.float (1/2))])]) :=
  ⟨by decide, C1_roundtrip_identity _ (by decide)⟩

/-- Counterexample to C1 as stated: the integer `2^63`, which exceeds
`i64::MAX`, is accepted (not rejected) — `as_f64` never fails, so the
rejection branch is unreachable — and it converts to a float, so the round
trip returns a float-typed number instead of the original integer. -/
theorem C1_counterexample :
    json_to_value (Json.num (.posInt 9223372036854775808)) =
      Except.ok (Value.float (f64OfNat 9223372036854775808)) ∧
    (json_to_value (Json.num (.posInt 9223372036854775808))).map value_to_json ≠
      Except.ok (Json.num (.posInt 9223372036854775808)) := by
  refine ⟨rfl, ?_⟩
  have h : (json_to_value (Json.num (.posInt 9223372036854775808))).map value_to_json =
      Except.ok (Json.num (.float (f64OfNat 9223372036854775808))) := rfl
  rw [h]
  simp

/-- C2 (amended): `rpc_code` sends strata-coded not-found and
invalid-key/path/input/wrong-type errors to -32602, every other strata code
to -32603, unknown-tool to -32601, missing/invalid argument to -32602,
protocol errors to -32600, and the adapter-level branch-not-found,
I/O and internal errors to -32603. -/
theorem C2_rpc_code_map :
    (∀ code msg, code ∈ ["KEY_NOT_FOUND", "BRANCH_NOT_FOUND", "COLLECTION_NOT_FOUND",
        "CELL_NOT_FOUND", "DOCUMENT_NOT_FOUND", "STREAM_NOT_FOUND", "INVALID_KEY",
        "INVALID_PATH", "INVALID_INPUT", "WRONG_TYPE"] →
      McpError.rpc_code (.strata code msg) = -32602) ∧
    (∀ code msg, code ∉ ["KEY_NOT_FOUND", "BRANCH_NOT_FOUND", "COLLECTION_NOT_FOUND",
        "CELL_NOT_FOUND", "DOCUMENT_NOT_FOUND", "STREAM_NOT_FOUND", "INVALID_KEY",
        "INVALID_PATH", "INVALID_INPUT", "WRONG_TYPE"] →
      McpError.rpc_code (.strata code msg) = -32603) ∧
    (∀ t, McpError.rpc_code (.unknownTool t) = -32601) ∧
    (∀ a, McpError.rpc_code (.missingArg a) = -32602) ∧
    (∀ n r, McpError.rpc_code (.invalidArg n r) = -32602) ∧
    (∀ b, McpError.rpc_code (.branchNotFound b) = -32603) ∧
    (∀ m, McpError.rpc_code (.io m) = -32603) ∧
    (∀ m, McpError.rpc_code (.internal m) = -32603) ∧
    (∀ m, McpError.rpc_code (.protocol m) = -32600) := by
  refine ⟨?_, ?_, fun _ => rfl, fun _ => rfl, fun _ _ => rfl, fun _ => rfl,
    fun _ => rfl, fun _ => rfl, fun _ => rfl⟩
  · intro code msg h
    fin_cases h <;> rfl
  · intro code msg h
    simp only [McpError.rpc_code]
    split <;> simp_all

/-- Witness for C2 at concrete strata codes. -/
theorem C2_rpc_code_map_witness :
    McpError.rpc_code (.strata "KEY_NOT_FOUND" "m") = -32602 ∧
    McpError.rpc_code (.strata "VERSION_CONFLICT" "m") = -32603 :=
  ⟨C2_rpc_code_map.1 "KEY_NOT_FOUND" "m" (by decide),
   C2_rpc_code_map.2.1 "VERSION_CONFLICT" "m" (by decide)⟩

/-- Counterexample to C2 as stated: the branch-not-found error a failed
branch switch raises is the adapter-level `BranchNotFound` variant, and
`rpc_code` sends it through the catch-all to -32603 (internal error), not
to -32602 as the claim asserts for every not-found condition. -/
theorem C2_counterexample :
    (McpSession.switch_branch (fun _ => .ok (.bool false)) "feature" McpSession.new).1 =
      .error (.branchNotFound "feature") ∧
    McpError.rpc_code (.branchNotFound "feature") = -32603 ∧
    McpError.rpc_code (.branchNotFound "feature") ≠ -32602 := by
  refine ⟨rfl, rfl, by decide⟩

/-- C3: `switch_branch` updates the branch field exactly when the engine
confirms existence; a false answer yields the branch-not-found error, an
engine failure propagates, and in every non-success case the session state
is exactly what it was. -/
theorem C3_switch_branch_atomic (eng : Engine) (name : String) (s : McpSession) :
    (eng (.branchExists name) = .ok (.bool true) →
      McpSession.switch_branch eng name s = (.ok (), { s with branch := name })) ∧
    (eng (.branchExists name) = .ok (.bool false) →
      McpSession.switch_branch eng name s = (.error (.branchNotFound name), s)) ∧
    (∀ e, eng (.branchExists name) = .error e →
      McpSession.switch_branch eng name s = (.error e, s)) ∧
    (∀ u, (McpSession.switch_branch eng name s).1 = .ok u →
      (McpSession.switch_branch eng name s).2 = { s with branch := name } ∧
      eng (.branchExists name) = .ok (.bool true)) ∧
    ((McpSession.switch_branch eng name s).1 ≠ .ok () →
      (McpSession.switch_branch eng name s).2 = s) := by
  refine ⟨?_, ?_, ?_, ?_, ?_⟩
  · intro h; simp [McpSession.switch_branch, h]
  · intro h; simp [McpSession.switch_branch, h]
  · intro e h; simp [McpSession.switch_branch, h]
  · intro u hu
    cases heng : eng (.branchExists name) with
    | error e => simp [McpSession.switch_branch, heng] at hu
    | ok out =>
      cases out
      case bool b => cases b <;> simp_all [McpSession.switch_branch, heng]
      all_goals simp_all [McpSession.switch_branch, heng]
  · intro hu
    cases heng : eng (.branchExists name) with
    | error e => simp [McpSession.switch_branch, heng]
    | ok out =>
      cases out
      case bool b => cases b <;> simp_all [McpSession.switch_branch, heng]
      all_goals simp_all [McpSession.switch_branch, heng]

/-- Witness for C3 with engines answering true and false. -/
theorem C3_switch_branch_atomic_witness :
    McpSession.switch_branch (fun _ => .ok (.bool true)) "feature" McpSession.new =
      (.ok (), { McpSession.new with branch := "feature" }) ∧
    McpSession.switch_branch (fun _ => .ok (.bool false)) "feature" McpSession.new =
      (.error (.branchNotFound "feature"), McpSession.new) :=
  ⟨(C3_switch_branch_atomic (fun _ => .ok (.bool true)) "feature" McpSession.new).1 rfl,
   (C3_switch_branch_atomic (fun _ => .ok (.bool false)) "feature" McpSession.new).2.1 rfl⟩

/-- C4: the transaction flag after `execute` is exactly the lifecycle
reading of the returned output (begun sets it, committed/aborted clear it,
everything else — including errors — leaves it), the output itself is
passed through unchanged, branch and space are untouched, and over any
sequence of calls the flag is the fold of that step over the observed
results. -/
theorem C4_transaction_flag (eng : Engine) (cmd : Command) (s : McpSession)
    (calls : List (Engine × Command)) :
    (McpSession.execute eng cmd s).2.in_transaction = txnStep (eng cmd) s.in_transaction ∧
    (McpSession.execute eng cmd s).1 = eng cmd ∧
    (McpSession.execute eng cmd s).2.branch = s.branch ∧
    (McpSession.execute eng cmd s).2.space = s.space ∧
    (McpSession.runCalls calls s).in_transaction =
      calls.foldl (fun a c => txnStep (c.1 c.2) a) s.in_transaction :=
  ⟨execute_txn_flag eng cmd s, execute_result eng cmd s,
   (execute_branch_space eng cmd s).1, (execute_branch_space eng cmd s).2,
   runCalls_foldl calls s⟩

/-- C5: `handle_tools_call` answers -32602 when params is absent or not an
object, when `name` is absent or not a string, and when `arguments` is
present but neither an object nor null; otherwise it dispatches with the
extracted arguments (the empty map when absent or null) and wraps a
successful result in the content-array envelope with the serialized result
as the text, while a dispatch error becomes the JSON-RPC error of that
error. -/
theorem C5_tools_call_contract (dispatch : String → Args → McpResult Json)
    (id : Option Json) :
    (handle_tools_call dispatch id none =
      .errorOf id (-32602) "Missing params object") ∧
    (∀ j, (∀ kvs, j ≠ .obj kvs) →
      handle_tools_call dispatch id (some j) =
        .errorOf id (-32602) "Missing params object") ∧
    (∀ p, (lookupKV p "name").bind Json.asStr = none →
      handle_tools_call dispatch id (some (.obj p)) =
        .errorOf id (-32602) "Missing name in params") ∧
    (∀ p name v, (lookupKV p "name").bind Json.asStr = some name →
      lookupKV p "arguments" = some v → (∀ kvs, v ≠ .obj kvs) → v ≠ .null →
      handle_tools_call dispatch id (some (.obj p)) =
        .errorOf id (-32602) "arguments must be an object") ∧
    (∀ p name args r, (lookupKV p "name").bind Json.asStr = some name →
      (lookupKV p "arguments" = some (.obj args) ∨
        ((lookupKV p "arguments" = none ∨ lookupKV p "arguments" = some .null) ∧
          args = [])) →
      dispatch name args = .ok r →
      handle_tools_call dispatch id (some (.obj p)) =
        .success id (mkObj [("content",
          .arr [mkObj [("type", .str "text"), ("text", .str r.serialize)]])])) ∧
    (∀ p name args e, (lookupKV p "name").bind Json.asStr = some name →
      (lookupKV p "arguments" = some (.obj args) ∨
        ((lookupKV p "arguments" = none ∨ lookupKV p "arguments" = some .null) ∧
          args = [])) →
      dispatch name args = .error e →
      handle_tools_call dispatch id (some (.obj p)) = .from_error id e) := by
  refine ⟨rfl, ?_, ?_, ?_, ?_, ?_⟩
  · intro j hj
    cases j with
    | obj kvs => exact absurd rfl (hj kvs)
    | null => rfl
    | bool b => rfl
    | num n => rfl
    | str s => rfl
    | arr xs => rfl
  · intro p h
    simp [handle_tools_call, h]
  · intro p name v h1 h2 h3 h4
    cases v with
    | obj kvs => exact absurd rfl (h3 kvs)
    | null => exact absurd rfl h4
    | bool b => simp [handle_tools_call, h1, h2]
    | num n => simp [handle_tools_call, h1, h2]
    | str s => simp [handle_tools_call, h1, h2]
    | arr xs => simp [handle_tools_call, h1, h2]
  · intro p name args r h1 h2 h3
    rcases h2 with h2 | ⟨h2 | h2, rfl⟩ <;> simp [handle_tools_call, h1, h2, h3]
  · intro p name args e h1 h2 h3
    rcases h2 with h2 | ⟨h2 | h2, rfl⟩ <;> simp [handle_tools_call, h1, h2, h3]

/-- Witness for C5: a successful call with defaulted arguments, and a
non-object params rejection. -/
theorem C5_tools_call_contract_witness :
    handle_tools_call (fun _ _ => .ok (.bool true)) (some (.num (.posInt 1)))
        (some (mkObj [("name", .str "strata_db_ping")])) =
      .success (some (.num (.posInt 1))) (mkObj [("content",
        .arr [mkObj [("type", .str "text"), ("text", .str (Json.bool true).serialize)]])]) ∧
    handle_tools_call (fun _ _ => .ok (.bool true)) none (some (.str "x")) =
      .errorOf none (-32602) "Missing params object" :=
  ⟨(C5_tools_call_contract (fun _ _ => .ok (.bool true)) (some (.num (.posInt 1)))).2.2.2.2.1
      [("name", .str "strata_db_ping")] "strata_db_ping" [] (.bool true)
      (by decide) (Or.inr ⟨Or.inl rfl, rfl⟩) rfl,
   (C5_tools_call_contract (fun _ _ => .ok (.bool true)) none).2.1 (.str "x")
      (fun kvs h => by cases h)⟩

/-- C6: a tool name matched by no category routing literal yields the
unknown-tool error; a name matched by a category but absent from its exact
arm list also yields the unknown-tool error (no fall-through); and that
error surfaces in a response with JSON-RPC code -32601. -/
theorem C6_unknown_tool (name : String) (id : Option Json) :
    (categories.find? (fun c => strStarts c.1 name) = none →
      registryRoute name = .error (.unknownTool name)) ∧
    (∀ p ops, categories.find? (fun c => strStarts c.1 name) = some (p, ops) →
      name ∉ ops → registryRoute name = .error (.unknownTool name)) ∧
    (JsonRpcResponse.from_error id (.unknownTool name)).error =
      some { code := -32601, message := "unknown tool: " ++ name, data := none } := by
  refine ⟨?_, ?_, rfl⟩
  · intro h; simp [registryRoute, h]
  · intro p ops h hn; simp [registryRoute, h, hn]

/-- Witness for C6: an unknown name inside the key-value category, and a
name outside every category. -/
theorem C6_unknown_tool_witness :
    registryRoute "strata_kv_zzz" = .error (.unknownTool "strata_kv_zzz") ∧
    registryRoute "frobnicate" = .error (.unknownTool "frobnicate") :=
  ⟨(C6_unknown_tool "strata_kv_zzz" none).2.1 "strata_kv_"
      ["strata_kv_put", "strata_kv_get", "strata_kv_delete", "strata_kv_list",
       "strata_kv_history", "strata_kv_put_many", "strata_kv_get_many",
       "strata_kv_delete_many"] (by decide) (by decide),
   (C6_unknown_tool "frobnicate" none).1 (by decide)⟩

/-- C7: the paginated-list output becomes an object whose `keys` field is
the array of key strings, with a `cursor` field present (as a string) iff
the output carries a continuation cursor, and wholly absent otherwise. -/
theorem C7_paginated_list (keys : List String) (cursor : Option String) :
    (output_to_json (.jsonListResult keys cursor)).getKey "keys" =
      some (.arr (keys.map Json.str)) ∧
    (∀ c, cursor = some c →
      (output_to_json (.jsonListResult keys cursor)).getKey "cursor" = some (.str c)) ∧
    (cursor = none →
      (output_to_json (.jsonListResult keys cursor)).hasKey "cursor" = false) ∧
    (output_to_json (.jsonListResult keys cursor)).hasKey "cursor" = cursor.isSome := by
  have h1 : strLt "cursor" "keys" = true := by decide
  have h2 : ("cursor" : String) ≠ "keys" := by decide
  have h3 : ("keys" : String) ≠ "cursor" := by decide
  cases cursor <;>
    simp [output_to_json, insortKV, Json.getKey, Json.hasKey, lookupKV, List.find?,
      h1, h2, h3]

/-- Witness for C7 with and without a cursor. -/
theorem C7_paginated_list_witness :
    (output_to_json (.jsonListResult ["a"] (some "b"))).getKey "cursor" =
      some (.str "b") ∧
    (output_to_json (.jsonListResult ["a"] none)).hasKey "cursor" = false :=
  ⟨(C7_paginated_list ["a"] (some "b")).2.1 "b" rfl,
   (C7_paginated_list ["a"] none).2.2.1 rfl⟩

/-- C8: `switch_space` sets the space field unconditionally — its very type
takes no engine, so no existence check or command is possible — and leaves
branch and transaction flag untouched. -/
theorem C8_switch_space (name : String) (s : McpSession) :
    (McpSession.switch_space name s).space = name ∧
    (McpSession.switch_space name s).branch = s.branch ∧
    (McpSession.switch_space name s).in_transaction = s.in_transaction := by
  simp [McpSession.switch_space]

/-- C9: a non-empty line the parser rejects makes `run_sync` emit a
response whose error code is -32700 and whose serialized form carries no
`id` key at all, and the loop continues with the remaining lines and an
unchanged server state. -/
theorem C9_parse_error_response (σ : Type) (parse : String → Except String JsonRpcRequest)
    (handle : JsonRpcRequest → σ → JsonRpcResponse × σ)
    (line : String) (e : String) (rest : List String) (s : σ)
    (hne : strTrim line ≠ "") (hp : parse (strTrim line) = .error e) :
    run_sync parse handle (line :: rest) s =
      ((JsonRpcResponse.errorOf none (-32700) ("Parse error: " ++ e)) ::
        (run_sync parse handle rest s).1, (run_sync parse handle rest s).2) ∧
    (responseToJson (.errorOf none (-32700) ("Parse error: " ++ e))).hasKey "id" = false ∧
    (JsonRpcResponse.errorOf none (-32700) ("Parse error: " ++ e)).error =
      some { code := -32700, message := "Parse error: " ++ e, data := none } ∧
    (JsonRpcResponse.errorOf none (-32700) ("Parse error: " ++ e)).id = none := by
  refine ⟨?_, ?_, rfl, rfl⟩
  · cases hr : run_sync parse handle rest s with
    | mk rs s2 => simp [run_sync, processLine, hne, hp, hr]
  · have hlt : strLt "error" "jsonrpc" = true := by decide
    have h1 : ("error" : String) ≠ "id" := by decide
    have h2 : ("jsonrpc" : String) ≠ "id" := by decide
    simp [responseToJson, rpcErrorToJson, JsonRpcResponse.errorOf, mkObj, insortKV,
      Json.hasKey, Json.getKey, lookupKV, List.find?, hlt, h1, h2]

/-- Witness for C9 with a parser that rejects the single input line. -/
theorem C9_parse_error_response_witness :
    run_sync (fun _ => .error "bad") (fun _ s => (.errorOf none 0 "", s))
        ["x"] () =
      ([JsonRpcResponse.errorOf none (-32700) ("Parse error: " ++ "bad")], ()) ∧
    (responseToJson (.errorOf none (-32700) ("Parse error: " ++ "bad"))).hasKey "id" =
      false := by
  have h := C9_parse_error_response Unit (fun _ => .error "bad")
    (fun _ s => (.errorOf none 0 "", s)) "x" "bad" [] ()
    (by decide) rfl
  exact ⟨h.1, h.2.1⟩

/-- C10: `get_string_arg` reports the missing-argument error both when the
name is absent and when it is present with a non-string value, never a
distinct invalid-argument error; the `strata_kv_put` handler therefore
reports a missing `key` when the key argument is a number. -/
theorem C10_required_string_args (args : Args) (name : String) :
    (∀ v, lookupKV args name = some v → v.asStr = none →
      get_string_arg args name = .error (.missingArg name)) ∧
    (lookupKV args name = none →
      get_string_arg args name = .error (.missingArg name)) ∧
    (∀ n r, get_string_arg args name ≠ .error (.invalidArg n r)) ∧
    (∀ eng s v, lookupKV args "key" = some v → v.asStr = none →
      (kvPutCall eng args s).1 = .error (.missingArg "key")) := by
  refine ⟨?_, ?_, ?_, ?_⟩
  · intro v hv ha
    simp [get_string_arg, hv, ha]
  · intro hv
    simp [get_string_arg, hv]
  · intro n r
    simp only [get_string_arg]
    split <;> simp
  · intro eng s v hv ha
    have h : get_string_arg args "key" = .error (.missingArg "key") := by
      simp [get_string_arg, hv, ha]
    simp [kvPutCall, h]

/-- Witness for C10: a numeric `key` argument and an absent argument both
produce the missing-argument error. -/
theorem C10_required_string_args_witness :
    get_string_arg [("key", Json.num (.posInt 1))] "key" =
      .error (.missingArg "key") ∧
    get_string_arg [] "other" = .error (.missingArg "other") :=
  ⟨(C10_required_string_args [("key", Json.num (.posInt 1))] "key").1
      (Json.num (.posInt 1)) rfl rfl,
   (C10_required_string_args [] "other").2.1 rfl⟩

end StrataMcp
